import Mathlib

/-!
Verification of the occupancy / payment-handshake engine of the
Sagardubey1409/hardwaredetection smart-parking repository.

The ledger lives in a SQLite table `parking_log` (db_manager.py).  We embed
rows as a `Record` structure, the table as a list of rows in insertion
order (ascending `id`, as produced by AUTOINCREMENT), and each SQL
statement of the Python functions as the corresponding pure list operation.
Timestamps are modelled as integer seconds; the Python code stores
formatted strings and re-parses them, which is value-preserving at the
seconds granularity used by `"%Y-%m-%d %H:%M:%S"`.

Transient `database is locked` conditions are modelled by a function
`locked : Nat → Bool` giving, for each successive connection probe, whether
the store is busy at that probe.
-/

namespace Parking

/-- Status column of `parking_log`: rows are only ever written with the
values `'IN'` (at entry) and `'OUT'` (at payment confirmation). -/
inductive Status where
  | IN : Status
  | OUT : Status
  deriving DecidableEq, Repr

/-- One row of the `parking_log` table (db_manager.py, `connect_db`).
`entry_time` is always set at insertion; `exit_time`, `duration_min` and
`amount` are NULL until payment confirmation; `slot` is NULL-able TEXT. -/
structure Record where
  id : Nat
  plate : String
  entry_time : Int
  exit_time : Option Int
  duration_min : Option Int
  amount : Option Int
  status : Status
  slot : Option String
  deriving DecidableEq, Repr

/-- The persistent store: rows in insertion order (ascending AUTOINCREMENT
`id`), plus the next id the store will assign. -/
structure DB where
  rows : List Record
  next_id : Nat
  deriving DecidableEq, Repr

/-- db_manager.py line 15: `RATE_PER_MIN = 1`. -/
def RATE_PER_MIN : Int := 1

/-- db_manager.py line 16: `TOTAL_SLOTS = 15`. -/
def TOTAL_SLOTS : Nat := 15

/-- db_manager.py line 17: `SLOT_LABELS = [f"A{i}" for i in range(1, TOTAL_SLOTS + 1)]`. -/
def SLOT_LABELS : List String :=
  (List.range TOTAL_SLOTS).map (fun i => "A" ++ toString (i + 1))

/-- Ceiling division on integers, `math.ceil(a / b)` for a positive
divisor `b` (integer `/` is Euclidean division, which floors for a
positive divisor). -/
def ceilDiv (a b : Int) : Int := -((-a) / b)

/-- The billing formula shared verbatim by db_manager.py lines 173-174 and
250-251: `duration = max(1, math.ceil(duration_seconds / 60))`. -/
def duration_minutes (duration_seconds : Int) : Int :=
  max 1 (ceilDiv duration_seconds 60)

/-- Companion definition following the spec text word for word, for
comparison with the code's `duration_minutes`:
`durationMinutes = ceil(max(1, (now - entryTime) in seconds) / 60)`. -/
def spec_duration_minutes (duration_seconds : Int) : Int :=
  ceilDiv (max 1 duration_seconds) 60

/-- db_manager.py lines 59-75, `wait_for_db_unlock`: probe the store up to
`fuel` times starting at probe index `attempt`; a busy probe sleeps
`wait_time` (500 ms) and retries; a free probe returns success.  Returns
(success, total milliseconds slept). -/
def wait_loop (locked : Nat → Bool) : Nat → Nat → Bool × Nat
  | _, 0 => (false, 0)
  | attempt, fuel + 1 =>
      if locked attempt then
        let rest := wait_loop locked (attempt + 1) fuel
        (rest.1, rest.2 + 500)
      else
        (true, 0)

/-- db_manager.py `wait_for_db_unlock(max_retries=5, wait_time=0.5)`:
success flag of the probe loop started at attempt 0. -/
def wait_for_db_unlock (locked : Nat → Bool) (max_retries : Nat) : Bool :=
  (wait_loop locked 0 max_retries).1

/-- Total milliseconds slept by `wait_for_db_unlock` (500 ms after every
busy probe, db_manager.py line 70). -/
def wait_sleep_ms (locked : Nat → Bool) (max_retries : Nat) : Nat :=
  (wait_loop locked 0 max_retries).2

/-- SQL `SELECT * FROM parking_log WHERE plate=? AND status='IN'` followed
by `fetchone()` being non-empty (db_manager.py line 88). -/
def has_in_record (db : DB) (plate : String) : Bool :=
  db.rows.any (fun r => r.plate == plate && r.status == Status.IN)

/-- SQL `SELECT slot FROM parking_log WHERE status='IN'` filtered to
non-NULL values (db_manager.py lines 271-277, `get_occupied_slots`; the
Python builds `{row[0] for row in c.fetchall() if row[0]}`). -/
def get_occupied_slots (db : DB) : List String :=
  db.rows.filterMap (fun r => if r.status = Status.IN then r.slot else none)

/-- db_manager.py lines 283-288, `find_next_available_slot`: first label
of `SLOT_LABELS` not in the occupied set, `None` when all are taken. -/
def find_next_available_slot (db : DB) : Option String :=
  SLOT_LABELS.find? (fun label => !(get_occupied_slots db).contains label)

/-- SQL `SELECT ... WHERE plate=? AND status='IN' ORDER BY id DESC LIMIT 1`
(db_manager.py lines 150-153 and 239-242): with rows kept in ascending-id
order this is the last row matching the predicate. -/
def last_in_record (db : DB) (plate : String) : Option Record :=
  (db.rows.filter (fun r => r.plate == plate && r.status == Status.IN)).getLast?

/-- The row written by the INSERT of db_manager.py lines 99-102:
`INSERT INTO parking_log (plate, entry_time, status, slot) VALUES
(?, ?, 'IN', ?)`; the remaining columns stay NULL. -/
def new_entry_record (nid : Nat) (plate : String) (now : Int) (slot : String) :
    Record :=
  { id := nid, plate := plate, entry_time := now, exit_time := none,
    duration_min := none, amount := none, status := Status.IN,
    slot := some slot }

/-- db_manager.py lines 78-114, `log_entry`: guarded insert of a fresh IN
row.  Returns the status string of the Python function together with the
resulting store. -/
def log_entry (locked : Nat → Bool) (now : Int) (db : DB) (plate : String) :
    String × DB :=
  if !(wait_for_db_unlock locked 5) then ("db_locked", db)
  else if has_in_record db plate then ("already_in", db)
  else
    match find_next_available_slot db with
    | none => ("full", db)
    | some slot =>
        ("entry_logged",
          { rows := db.rows ++ [new_entry_record db.next_id plate now slot],
            next_id := db.next_id + 1 })

/-- The dict returned by a successful `log_exit` (db_manager.py
lines 189-197); `slot` is the stored label or `"Unknown"`. -/
structure ExitInfo where
  plate : String
  entry_time : Int
  exit_time : Int
  duration_min : Int
  amount : Int
  slot : String
  deriving DecidableEq, Repr

/-- Return value of `log_exit`: the error strings of the Python function
or the exit-quote dict. -/
inductive ExitOutcome where
  | db_locked : ExitOutcome
  | not_found : ExitOutcome
  | ok : ExitInfo → ExitOutcome
  deriving DecidableEq, Repr

/-- db_manager.py lines 131-208, `log_exit`: quote the fee for the most
recent IN row of the plate.  Performs no INSERT or UPDATE, so the store is
returned unchanged; QR-image generation (an image file side effect outside
the ledger) is modelled as always succeeding. -/
def log_exit (locked : Nat → Bool) (now : Int) (db : DB) (plate : String) :
    ExitOutcome × DB :=
  if !(wait_for_db_unlock locked 5) then (ExitOutcome.db_locked, db)
  else
    match last_in_record db plate with
    | none => (ExitOutcome.not_found, db)
    | some r =>
        let duration := duration_minutes (now - r.entry_time)
        let amount := duration * RATE_PER_MIN
        (ExitOutcome.ok
          { plate := plate, entry_time := r.entry_time, exit_time := now,
            duration_min := duration, amount := amount,
            slot := r.slot.getD "Unknown" }, db)

/-- SQL `UPDATE parking_log SET exit_time=?, duration_min=?, amount=?,
status='OUT' WHERE id=?` (db_manager.py lines 253-258) applied to one row. -/
def close_with_billing (now d a : Int) (rid : Nat) (q : Record) : Record :=
  if q.id = rid then
    { q with exit_time := some now, duration_min := some d, amount := some a,
             status := Status.OUT }
  else q

/-- SQL `UPDATE parking_log SET status='OUT' WHERE id=?` (db_manager.py
line 260) applied to one row. -/
def force_out (rid : Nat) (q : Record) : Record :=
  if q.id = rid then { q with status := Status.OUT } else q

/-- db_manager.py lines 227-268, `confirm_payment_and_exit`: close the most
recent IN row of the plate.  If its `exit_time` is still NULL, the billing
fields and `status='OUT'` are written in one UPDATE; otherwise only the
status is forced to OUT.  Returns the Python function's boolean together
with the resulting store. -/
def confirm_payment_and_exit (locked : Nat → Bool) (now : Int) (db : DB)
    (plate : String) : Bool × DB :=
  if !(wait_for_db_unlock locked 5) then (false, db)
  else
    match last_in_record db plate with
    | none => (false, db)
    | some r =>
        match r.exit_time with
        | none =>
            let duration := duration_minutes (now - r.entry_time)
            let amount := duration * RATE_PER_MIN
            (true,
              { db with rows :=
                  db.rows.map (close_with_billing now duration amount r.id) })
        | some _ =>
            (true, { db with rows := db.rows.map (force_out r.id) })

/-- db_manager.py lines 291-305, `fetch_current_slots`: map every label of
`SLOT_LABELS` to `None`, then for each IN row whose slot is one of the
labels overwrite that label's binding with the row's plate. -/
def fetch_current_slots (db : DB) : List (String × Option String) :=
  let in_rows := db.rows.filterMap
    (fun r => if r.status = Status.IN then some (r.slot, r.plate) else none)
  in_rows.foldl
    (fun slots sp =>
      match sp.1 with
      | some s =>
          if SLOT_LABELS.contains s then
            slots.map (fun lp => if lp.1 = s then (lp.1, some sp.2) else lp)
          else slots
      | none => slots)
    (SLOT_LABELS.map (fun l => (l, none)))

/-! App layer: the Flask process (app-LAPTOP-0RFHURIK.py).  Socket.IO
emissions are modelled as a list of events produced by each request
handler, in emission order. -/

/-- Socket.IO events emitted by the Flask handlers relevant to gate
control and the pending-exit handshake. -/
inductive Event where
  | open_exit_gate : String → Event
  | payment_confirmed : String → Event
  | logs_update : Event
  | slots_update : Event
  | pending_exit : String → Event
  | plate_detected : String → String → Event
  deriving DecidableEq, Repr

/-- In-memory state of the Flask process: the shared store plus the
single mutable `pending_exit_plate` slot (app lines 50-51), whose lock we
model by treating each handler as atomic. -/
structure AppState where
  db : DB
  pending_exit_plate : Option String
  deriving DecidableEq, Repr

/-- Result of one request handler: the HTTP-level success flag, the new
process state and the Socket.IO events emitted, in order. -/
structure ApiResult where
  success : Bool
  state : AppState
  events : List Event
  deriving DecidableEq, Repr

/-- app-LAPTOP-0RFHURIK.py lines 198-225, `api_confirm_exit`: confirm the
payment; on success clear the pending plate if it matches, then emit
`open_exit_gate`, `payment_confirmed` and the two broadcast updates. -/
def api_confirm_exit (locked : Nat → Bool) (now : Int) (st : AppState)
    (plate : Option String) : ApiResult :=
  match plate with
  | none => { success := false, state := st, events := [] }
  | some p =>
      let rdb := confirm_payment_and_exit locked now st.db p
      if rdb.1 then
        { success := true,
          state :=
            { db := rdb.2,
              pending_exit_plate :=
                if st.pending_exit_plate = some p then none
                else st.pending_exit_plate },
          events := [Event.open_exit_gate p, Event.payment_confirmed p,
                     Event.logs_update, Event.slots_update] }
      else
        { success := false, state := { st with db := rdb.2 }, events := [] }

/-- app-LAPTOP-0RFHURIK.py lines 262-270, `set_pending_exit`:
unconditionally overwrite the pending plate, then emit `pending_exit`. -/
def set_pending_exit (st : AppState) (plate : String) :
    AppState × List Event :=
  ({ st with pending_exit_plate := some plate }, [Event.pending_exit plate])

/-- app-LAPTOP-0RFHURIK.py lines 272-278, `get_pending_exit`: read the
pending plate without clearing it. -/
def get_pending_exit (st : AppState) : Option String :=
  st.pending_exit_plate

/-- app-LAPTOP-0RFHURIK.py lines 227-260, `plate_detected`: validates the
fields then emits `plate_detected` (plus dashboard refreshes on
`entry_logged`).  Only the emitted events are modelled; the handler never
touches the ledger or the gate. -/
def plate_detected_handler (plate status : Option String) : List Event :=
  match plate, status with
  | some p, some s =>
      Event.plate_detected p s ::
        (if s = "entry_logged" then [Event.logs_update, Event.slots_update]
         else [])
  | _, _ => []

/-- app-LAPTOP-0RFHURIK.py lines 87-119, `sms_webhook`: after the token
check, the SMS text is parsed for an amount and a plate (the regex match
is modelled as an already-parsed optional pair); on a match the payment is
confirmed via `confirm_payment_and_exit`.  The handler emits no Socket.IO
events at all. -/
def sms_webhook (locked : Nat → Bool) (now : Int) (db : DB)
    (token expected_token : String) (parsed : Option (Int × String)) :
    String × DB × List Event :=
  if token ≠ expected_token then ("forbidden", db, [])
  else
    match parsed with
    | some pair =>
        let rdb := confirm_payment_and_exit locked now db pair.2
        if rdb.1 then ("Payment confirmed, exit allowed", rdb.2, [])
        else ("Payment received but not matched", rdb.2, [])
    | none => ("No match", db, [])

/-! Ledger invariants (spec section 3) and reachability by the three
Transaction Manager operations. -/

/-- At most one row with status IN per plate: any two distinct positions
of the row list do not both hold an IN row of the same plate. -/
def PlateInv (db : DB) : Prop :=
  db.rows.Pairwise
    (fun r1 r2 => r1.status = Status.IN → r2.status = Status.IN →
      r1.plate ≠ r2.plate)

/-- At most one row with status IN per slot label: two IN rows at distinct
positions can only share a slot value when that value is NULL. -/
def SlotInv (db : DB) : Prop :=
  db.rows.Pairwise
    (fun r1 r2 => r1.status = Status.IN → r2.status = Status.IN →
      r1.slot = r2.slot → r1.slot = none)

/-- Both uniqueness invariants of spec section 3. -/
def Inv (db : DB) : Prop := PlateInv db ∧ SlotInv db

/-- Distinctness of the AUTOINCREMENT primary keys. -/
def IdInv (db : DB) : Prop :=
  db.rows.Pairwise (fun r1 r2 => r1.id ≠ r2.id)

/-- States reachable from a given store by any sequence of `log_entry`,
`log_exit` and `confirm_payment_and_exit` calls, with arbitrary lock
conditions, times and plates. -/
inductive Reachable : DB → DB → Prop where
  | refl (db : DB) : Reachable db db
  | entry (db1 db2 : DB) (locked : Nat → Bool) (now : Int) (plate : String) :
      Reachable db1 db2 → Reachable db1 (log_entry locked now db2 plate).2
  | quote (db1 db2 : DB) (locked : Nat → Bool) (now : Int) (plate : String) :
      Reachable db1 db2 → Reachable db1 (log_exit locked now db2 plate).2
  | confirm (db1 db2 : DB) (locked : Nat → Bool) (now : Int) (plate : String) :
      Reachable db1 db2 →
      Reachable db1 (confirm_payment_and_exit locked now db2 plate).2

/-! Concrete fixtures used to instantiate the theorems. -/

/-- Lock condition of an always-free store: every probe succeeds. -/
def no_lock : Nat → Bool := fun _ => false

/-- Lock condition of a permanently busy store: every probe finds it
locked. -/
def all_locked : Nat → Bool := fun _ => true

/-- Fresh, empty store. -/
def empty_db : DB := { rows := [], next_id := 1 }

/-- Store holding one open stay, plate `KA01A1111` in slot `A1`. -/
def rec_a : Record :=
  { id := 1, plate := "KA01A1111", entry_time := 0, exit_time := none,
    duration_min := none, amount := none, status := Status.IN,
    slot := some "A1" }

/-- Store whose only row is `rec_a`. -/
def db_a : DB := { rows := [rec_a], next_id := 2 }

/-- An IN row whose `slot` column is NULL. -/
def ghost_rec : Record :=
  { id := 1, plate := "KA05G5555", entry_time := 0, exit_time := none,
    duration_min := none, amount := none, status := Status.IN, slot := none }

/-- Store whose only row is the slotless IN row `ghost_rec`. -/
def ghost_db : DB := { rows := [ghost_rec], next_id := 2 }

/-- The state after the camera parks pending plate A and then overwrites
it with pending plate B on the concrete one-car store. -/
def pending_scenario_state : AppState :=
  (set_pending_exit
    (set_pending_exit { db := db_a, pending_exit_plate := none }
      "KA01A1111").1 "KA02B2222").1

end Parking

namespace Parking

theorem wait_loop_false_iff (locked : Nat → Bool) :
    ∀ (n a : Nat), (wait_loop locked a n).1 = false ↔
      ∀ i, i < n → locked (a + i) = true := by
  intro n
  induction n with
  | zero =>
      intro a
      simp only [wait_loop]
      constructor
      · intro _ i hi; exact absurd hi (Nat.not_lt_zero i)
      · intro _; trivial
  | succ m ih =>
      intro a
      simp only [wait_loop]
      by_cases h : locked a = true
      · simp only [h, if_true]
        rw [ih (a + 1)]
        constructor
        · intro hall i hi
          match i with
          | 0 => simpa using h
          | j + 1 =>
              have h2 := hall j (Nat.lt_of_succ_lt_succ hi)
              rw [show a + (j + 1) = a + 1 + j by omega]
              exact h2
        · intro hall i hi
          have h2 := hall (i + 1) (by omega)
          rw [show a + 1 + i = a + (i + 1) by omega]
          exact h2
      · simp only [h, if_false]
        constructor
        · intro hfalse; cases hfalse
        · intro hall
          have h2 := hall 0 (by omega)
          rw [Nat.add_zero] at h2
          exact absurd h2 h

theorem wait_loop_sleep_le (locked : Nat → Bool) :
    ∀ (n a : Nat), (wait_loop locked a n).2 ≤ n * 500 := by
  intro n
  induction n with
  | zero => intro a; simp [wait_loop]
  | succ m ih =>
      intro a
      simp only [wait_loop]
      by_cases h : locked a = true
      · simp only [h, if_true]
        have := ih (a + 1)
        omega
      · simp [h]

theorem wait_loop_sleep_all (locked : Nat → Bool) :
    ∀ (n a : Nat), (∀ i, i < n → locked (a + i) = true) →
      (wait_loop locked a n).2 = n * 500 := by
  intro n
  induction n with
  | zero => intro a _; simp [wait_loop]
  | succ m ih =>
      intro a hall
      have h0 : locked a = true := by simpa using hall 0 (by omega)
      simp only [wait_loop, h0, if_true]
      have h2 : (wait_loop locked (a + 1) m).2 = m * 500 := by
        apply ih
        intro i hi
        have := hall (i + 1) (by omega)
        rw [show a + 1 + i = a + (i + 1) by omega]
        exact this
      omega

theorem wait_all_locked (locked : Nat → Bool)
    (h : ∀ i, i < 5 → locked i = true) :
    wait_for_db_unlock locked 5 = false := by
  unfold wait_for_db_unlock
  rw [wait_loop_false_iff]
  intro i hi
  simpa using h i hi

theorem log_exit_snd (locked : Nat → Bool) (now : Int) (db : DB) (p : String) :
    (log_exit locked now db p).2 = db := by
  unfold log_exit
  split
  · rfl
  · split <;> rfl

theorem has_in_record_iff (db : DB) (p : String) :
    has_in_record db p = true ↔
      ∃ r ∈ db.rows, r.plate = p ∧ r.status = Status.IN := by
  simp [has_in_record, List.any_eq_true, Bool.and_eq_true, beq_iff_eq]

theorem mem_occupied_iff (db : DB) (l : String) :
    l ∈ get_occupied_slots db ↔
      ∃ r ∈ db.rows, r.status = Status.IN ∧ r.slot = some l := by
  simp only [get_occupied_slots, List.mem_filterMap]
  constructor
  · rintro ⟨r, hr, hif⟩
    by_cases h : r.status = Status.IN
    · simp only [h, if_true] at hif
      exact ⟨r, hr, h, hif⟩
    · simp [h] at hif
  · rintro ⟨r, hr, hst, hsl⟩
    exact ⟨r, hr, by simp [hst, hsl]⟩

theorem last_in_record_spec (db : DB) (p : String) (r : Record)
    (h : last_in_record db p = some r) :
    r ∈ db.rows ∧ r.plate = p ∧ r.status = Status.IN := by
  unfold last_in_record at h
  have hmem := List.mem_of_getLast?_eq_some h
  have h2 := List.mem_filter.1 hmem
  refine ⟨h2.1, ?_, ?_⟩
  · have := h2.2
    simp [Bool.and_eq_true, beq_iff_eq] at this
    exact this.1
  · have := h2.2
    simp [Bool.and_eq_true, beq_iff_eq] at this
    exact this.2

theorem last_in_record_none_iff (db : DB) (p : String) :
    last_in_record db p = none ↔
      ∀ r ∈ db.rows, ¬(r.plate = p ∧ r.status = Status.IN) := by
  unfold last_in_record
  rw [List.getLast?_eq_none_iff]
  rw [List.filter_eq_nil_iff]
  simp [Bool.and_eq_true, beq_iff_eq]

end Parking

namespace Parking

theorem log_entry_of_locked (locked : Nat → Bool) (now : Int) (db : DB)
    (p : String) (h : wait_for_db_unlock locked 5 = false) :
    log_entry locked now db p = ("db_locked", db) := by
  simp [log_entry, h]

theorem log_exit_of_locked (locked : Nat → Bool) (now : Int) (db : DB)
    (p : String) (h : wait_for_db_unlock locked 5 = false) :
    log_exit locked now db p = (ExitOutcome.db_locked, db) := by
  simp [log_exit, h]

theorem confirm_of_locked (locked : Nat → Bool) (now : Int) (db : DB)
    (p : String) (h : wait_for_db_unlock locked 5 = false) :
    confirm_payment_and_exit locked now db p = (false, db) := by
  simp [confirm_payment_and_exit, h]

theorem log_exit_of_some (locked : Nat → Bool) (now : Int) (db : DB)
    (p : String) (r : Record) (hw : wait_for_db_unlock locked 5 = true)
    (hr : last_in_record db p = some r) :
    log_exit locked now db p =
      (ExitOutcome.ok
        { plate := p, entry_time := r.entry_time, exit_time := now,
          duration_min := duration_minutes (now - r.entry_time),
          amount := duration_minutes (now - r.entry_time) * RATE_PER_MIN,
          slot := r.slot.getD "Unknown" }, db) := by
  simp [log_exit, hw, hr]

theorem confirm_of_none (locked : Nat → Bool) (now : Int) (db : DB)
    (p : String) (h : last_in_record db p = none) :
    confirm_payment_and_exit locked now db p = (false, db) := by
  by_cases hw : wait_for_db_unlock locked 5 = true
  · simp [confirm_payment_and_exit, hw, h]
  · simp only [Bool.not_eq_true] at hw
    exact confirm_of_locked locked now db p hw

theorem confirm_of_fresh (locked : Nat → Bool) (now : Int) (db : DB)
    (p : String) (r : Record) (hw : wait_for_db_unlock locked 5 = true)
    (hr : last_in_record db p = some r) (hx : r.exit_time = none) :
    confirm_payment_and_exit locked now db p =
      (true,
        { rows := db.rows.map (close_with_billing now
            (duration_minutes (now - r.entry_time))
            (duration_minutes (now - r.entry_time) * RATE_PER_MIN) r.id),
          next_id := db.next_id }) := by
  simp [confirm_payment_and_exit, hw, hr, hx]

theorem confirm_of_requoted (locked : Nat → Bool) (now : Int) (db : DB)
    (p : String) (r : Record) (t : Int)
    (hw : wait_for_db_unlock locked 5 = true)
    (hr : last_in_record db p = some r) (hx : r.exit_time = some t) :
    confirm_payment_and_exit locked now db p =
      (true, { rows := db.rows.map (force_out r.id),
               next_id := db.next_id }) := by
  simp [confirm_payment_and_exit, hw, hr, hx]

theorem close_with_billing_of_ne (now d a : Int) (rid : Nat) (q : Record)
    (h : q.id ≠ rid) : close_with_billing now d a rid q = q := by
  simp [close_with_billing, h]

theorem force_out_of_ne (rid : Nat) (q : Record) (h : q.id ≠ rid) :
    force_out rid q = q := by
  simp [force_out, h]

theorem close_with_billing_in (now d a : Int) (rid : Nat) (q : Record)
    (h : (close_with_billing now d a rid q).status = Status.IN) :
    q.id ≠ rid ∧ close_with_billing now d a rid q = q := by
  by_cases hid : q.id = rid
  · simp [close_with_billing, hid] at h
  · exact ⟨hid, close_with_billing_of_ne now d a rid q hid⟩

theorem force_out_in (rid : Nat) (q : Record)
    (h : (force_out rid q).status = Status.IN) :
    q.id ≠ rid ∧ force_out rid q = q := by
  by_cases hid : q.id = rid
  · simp [force_out, hid] at h
  · exact ⟨hid, force_out_of_ne rid q hid⟩

end Parking

namespace Parking

theorem close_with_billing_plate (now d a : Int) (rid : Nat) (q : Record) :
    (close_with_billing now d a rid q).plate = q.plate := by
  unfold close_with_billing; split <;> rfl

theorem force_out_plate (rid : Nat) (q : Record) :
    (force_out rid q).plate = q.plate := by
  unfold force_out; split <;> rfl

theorem log_entry_snd_cases (locked : Nat → Bool) (now : Int) (db : DB)
    (p : String) :
    (log_entry locked now db p).2 = db ∨
    ∃ s, find_next_available_slot db = some s ∧ has_in_record db p = false ∧
      wait_for_db_unlock locked 5 = true ∧
      (log_entry locked now db p).2 =
        { rows := db.rows ++ [new_entry_record db.next_id p now s],
          next_id := db.next_id + 1 } := by
  by_cases hw : wait_for_db_unlock locked 5 = true
  · by_cases hi : has_in_record db p = true
    · left; simp [log_entry, hw, hi]
    · cases hs : find_next_available_slot db with
      | none => left; simp [log_entry, hw, hi, hs]
      | some s =>
          right
          refine ⟨s, rfl, by simpa using hi, hw, ?_⟩
          simp [log_entry, hw, hi, hs]
  · left
    simp only [Bool.not_eq_true] at hw
    rw [log_entry_of_locked locked now db p hw]

theorem confirm_snd_cases (locked : Nat → Bool) (now : Int) (db : DB)
    (p : String) :
    (confirm_payment_and_exit locked now db p).2 = db ∨
    ∃ r, last_in_record db p = some r ∧
      ∃ f : Record → Record,
        (∀ q, (f q).status = Status.IN → q.id ≠ r.id ∧ f q = q) ∧
        (∀ q, (f q).plate = q.plate) ∧
        (confirm_payment_and_exit locked now db p).2 =
          { rows := db.rows.map f, next_id := db.next_id } := by
  by_cases hw : wait_for_db_unlock locked 5 = true
  · cases hr : last_in_record db p with
    | none => left; rw [confirm_of_none locked now db p hr]
    | some r =>
        right
        refine ⟨r, rfl, ?_⟩
        cases hx : r.exit_time with
        | none =>
            refine ⟨close_with_billing now
                (duration_minutes (now - r.entry_time))
                (duration_minutes (now - r.entry_time) * RATE_PER_MIN) r.id,
              fun q => close_with_billing_in _ _ _ _ q,
              fun q => close_with_billing_plate _ _ _ _ q, ?_⟩
            rw [confirm_of_fresh locked now db p r hw hr hx]
        | some t =>
            refine ⟨force_out r.id, fun q => force_out_in _ q,
              fun q => force_out_plate _ q, ?_⟩
            rw [confirm_of_requoted locked now db p r t hw hr hx]
  · left
    simp only [Bool.not_eq_true] at hw
    rw [confirm_of_locked locked now db p hw]

theorem plate_rel_symm :
    Symmetric (fun r1 r2 : Record => r1.status = Status.IN →
      r2.status = Status.IN → r1.plate ≠ r2.plate) := by
  intro a b hab h2 h1 he
  exact hab h1 h2 he.symm

theorem slot_rel_symm :
    Symmetric (fun r1 r2 : Record => r1.status = Status.IN →
      r2.status = Status.IN → r1.slot = r2.slot → r1.slot = none) := by
  intro a b hab h2 h1 he
  rw [he]
  exact hab h1 h2 he.symm

theorem Inv_log_entry (locked : Nat → Bool) (now : Int) (db : DB) (p : String)
    (h : Inv db) : Inv (log_entry locked now db p).2 := by
  rcases log_entry_snd_cases locked now db p with heq | ⟨s, hs, hi, _, heq⟩
  · rw [heq]; exact h
  · rw [heq]
    have hfree : s ∉ get_occupied_slots db := by
      have hp := List.find?_some hs
      simp only [Bool.not_eq_true'] at hp
      simp [List.contains] at hp
      exact hp
    have hnotin : ∀ r ∈ db.rows, ¬(r.plate = p ∧ r.status = Status.IN) := by
      intro r hr hcontra
      have := (has_in_record_iff db p).2 ⟨r, hr, hcontra⟩
      rw [hi] at this
      cases this
    constructor
    · rw [PlateInv, List.pairwise_append]
      refine ⟨h.1, List.pairwise_singleton _ _, ?_⟩
      intro a ha b hb
      simp only [List.mem_singleton] at hb
      subst hb
      intro hain _ hplate
      exact hnotin a ha ⟨by simpa [new_entry_record] using hplate, hain⟩
    · rw [SlotInv, List.pairwise_append]
      refine ⟨h.2, List.pairwise_singleton _ _, ?_⟩
      intro a ha b hb
      simp only [List.mem_singleton] at hb
      subst hb
      intro hain _ hslot
      exfalso
      apply hfree
      rw [mem_occupied_iff]
      exact ⟨a, ha, hain, by simpa [new_entry_record] using hslot⟩

theorem Inv_confirm (locked : Nat → Bool) (now : Int) (db : DB) (p : String)
    (h : Inv db) : Inv (confirm_payment_and_exit locked now db p).2 := by
  rcases confirm_snd_cases locked now db p with heq | ⟨r, _, f, hf, _, heq⟩
  · rw [heq]; exact h
  · rw [heq]
    constructor
    · refine List.Pairwise.map f ?_ h.1
      intro a b hab h1 h2
      rw [(hf a h1).2, (hf b h2).2]
      rw [(hf a h1).2] at h1
      rw [(hf b h2).2] at h2
      exact hab h1 h2
    · refine List.Pairwise.map f ?_ h.2
      intro a b hab h1 h2
      rw [(hf a h1).2, (hf b h2).2]
      rw [(hf a h1).2] at h1
      rw [(hf b h2).2] at h2
      exact hab h1 h2

theorem Inv_reachable (db db2 : DB) (h : Inv db) (hr : Reachable db db2) :
    Inv db2 := by
  induction hr with
  | refl => exact h
  | entry d2 lk nw pl _ ih => exact Inv_log_entry lk nw d2 pl ih
  | quote d2 lk nw pl _ ih => rw [log_exit_snd]; exact ih
  | confirm d2 lk nw pl _ ih => exact Inv_confirm lk nw d2 pl ih

end Parking

namespace Parking

theorem close_with_billing_slot (now d a : Int) (rid : Nat) (q : Record) :
    (close_with_billing now d a rid q).slot = q.slot := by
  unfold close_with_billing; split <;> rfl

theorem force_out_slot (rid : Nat) (q : Record) :
    (force_out rid q).slot = q.slot := by
  unfold force_out; split <;> rfl

theorem close_with_billing_out (now d a : Int) (rid : Nat) (q : Record)
    (h : q.id = rid) : (close_with_billing now d a rid q).status = Status.OUT := by
  simp [close_with_billing, h]

theorem force_out_out (rid : Nat) (q : Record) (h : q.id = rid) :
    (force_out rid q).status = Status.OUT := by
  simp [force_out, h]

theorem confirm_some_shape (locked : Nat → Bool) (now : Int) (db : DB)
    (p : String) (r : Record) (hw : wait_for_db_unlock locked 5 = true)
    (hr : last_in_record db p = some r) :
    ∃ f : Record → Record,
      (∀ q, (f q).status = Status.IN → q.id ≠ r.id ∧ f q = q) ∧
      (∀ q, q.id ≠ r.id → f q = q) ∧
      (∀ q, (f q).plate = q.plate) ∧
      (∀ q, (f q).slot = q.slot) ∧
      (∀ q, q.id = r.id → (f q).status = Status.OUT) ∧
      confirm_payment_and_exit locked now db p =
        (true, { rows := db.rows.map f, next_id := db.next_id }) := by
  cases hx : r.exit_time with
  | none =>
      exact ⟨close_with_billing now (duration_minutes (now - r.entry_time))
          (duration_minutes (now - r.entry_time) * RATE_PER_MIN) r.id,
        fun q => close_with_billing_in _ _ _ _ q,
        fun q => close_with_billing_of_ne _ _ _ _ q,
        fun q => close_with_billing_plate _ _ _ _ q,
        fun q => close_with_billing_slot _ _ _ _ q,
        fun q => close_with_billing_out _ _ _ _ q,
        confirm_of_fresh locked now db p r hw hr hx⟩
  | some t =>
      exact ⟨force_out r.id,
        fun q => force_out_in _ q,
        fun q => force_out_of_ne _ q,
        fun q => force_out_plate _ q,
        fun q => force_out_slot _ q,
        fun q => force_out_out _ q,
        confirm_of_requoted locked now db p r t hw hr hx⟩

theorem confirm_success_inv (locked : Nat → Bool) (now : Int) (db : DB)
    (p : String) (db2 : DB)
    (h : confirm_payment_and_exit locked now db p = (true, db2)) :
    wait_for_db_unlock locked 5 = true ∧
    ∃ r, last_in_record db p = some r ∧
      ∃ f : Record → Record,
        (∀ q, (f q).status = Status.IN → q.id ≠ r.id ∧ f q = q) ∧
        (∀ q, q.id ≠ r.id → f q = q) ∧
        (∀ q, (f q).plate = q.plate) ∧
        (∀ q, (f q).slot = q.slot) ∧
        (∀ q, q.id = r.id → (f q).status = Status.OUT) ∧
        db2 = { rows := db.rows.map f, next_id := db.next_id } := by
  by_cases hw : wait_for_db_unlock locked 5 = true
  · cases hr : last_in_record db p with
    | none =>
        rw [confirm_of_none locked now db p hr] at h
        exact absurd (congrArg Prod.fst h) (by simp)
    | some r =>
        obtain ⟨f, h1, h2, h3, h4, h5, heq⟩ :=
          confirm_some_shape locked now db p r hw hr
        rw [heq] at h
        refine ⟨hw, r, rfl, f, h1, h2, h3, h4, h5, ?_⟩
        exact (congrArg Prod.snd h).symm
  · simp only [Bool.not_eq_true] at hw
    rw [confirm_of_locked locked now db p hw] at h
    exact absurd (congrArg Prod.fst h) (by simp)

theorem slot_not_occupied_after_map (db : DB) (n : Nat) (r : Record) (s : String)
    (f : Record → Record) (hInv : SlotInv db) (hrm : r ∈ db.rows)
    (hrs : r.status = Status.IN) (hslot : r.slot = some s)
    (hf : ∀ q, (f q).status = Status.IN → q.id ≠ r.id ∧ f q = q) :
    s ∉ get_occupied_slots { rows := db.rows.map f, next_id := n } := by
  intro hmem
  rw [mem_occupied_iff] at hmem
  obtain ⟨q, hq, hqst, hqsl⟩ := hmem
  simp only [List.mem_map] at hq
  obtain ⟨q0, hq0, rfl⟩ := hq
  obtain ⟨hid, heq⟩ := hf q0 hqst
  rw [heq] at hqst hqsl
  by_cases hqr : q0 = r
  · subst hqr; exact hid rfl
  · have hrel := (List.Pairwise.forall slot_rel_symm hInv) hq0 hrm hqr
    have := hrel hqst hrs (by rw [hqsl, hslot])
    rw [hqsl] at this
    cases this

theorem confirm_then_not_found (locked : Nat → Bool) (now : Int) (db : DB)
    (p : String) (db2 : DB) (hPlate : PlateInv db)
    (h : confirm_payment_and_exit locked now db p = (true, db2)) :
    last_in_record db2 p = none := by
  obtain ⟨hw, r, hr, f, hf, _, hfp, _, _, rfl⟩ :=
    confirm_success_inv locked now db p db2 h
  obtain ⟨hrm, hrp, hrs⟩ := last_in_record_spec db p r hr
  rw [last_in_record_none_iff]
  rintro q hq ⟨hqp, hqs⟩
  simp only [List.mem_map] at hq
  obtain ⟨q0, hq0, rfl⟩ := hq
  obtain ⟨hid, heq⟩ := hf q0 hqs
  rw [heq] at hqs hqp
  by_cases hqr : q0 = r
  · subst hqr; exact hid rfl
  · have hrel := (List.Pairwise.forall plate_rel_symm hPlate) hq0 hrm hqr
    exact hrel hqs hrs (by rw [hqp, hrp])

end Parking

namespace Parking

theorem log_entry_success_shape (locked : Nat → Bool) (now : Int) (db : DB)
    (p : String) (db2 : DB)
    (h : log_entry locked now db p = ("entry_logged", db2)) :
    wait_for_db_unlock locked 5 = true ∧ has_in_record db p = false ∧
    ∃ s, find_next_available_slot db = some s ∧
      db2 = { rows := db.rows ++ [new_entry_record db.next_id p now s],
              next_id := db.next_id + 1 } := by
  by_cases hw : wait_for_db_unlock locked 5 = true
  · by_cases hi : has_in_record db p = true
    · rw [show log_entry locked now db p = ("already_in", db) by
        simp [log_entry, hw, hi]] at h
      have hx : "already_in" = "entry_logged" := congrArg Prod.fst h
      exact absurd hx (by decide)
    · cases hs : find_next_available_slot db with
      | none =>
          rw [show log_entry locked now db p = ("full", db) by
            simp [log_entry, hw, hi, hs]] at h
          have hx : "full" = "entry_logged" := congrArg Prod.fst h
          exact absurd hx (by decide)
      | some s =>
          refine ⟨hw, by simpa using hi, s, rfl, ?_⟩
          rw [show log_entry locked now db p = ("entry_logged",
              { rows := db.rows ++ [new_entry_record db.next_id p now s],
                next_id := db.next_id + 1 }) by
            simp [log_entry, hw, hi, hs]] at h
          exact (congrArg Prod.snd h).symm
  · simp only [Bool.not_eq_true] at hw
    rw [log_entry_of_locked locked now db p hw] at h
    have hx : "db_locked" = "entry_logged" := congrArg Prod.fst h
    exact absurd hx (by decide)

theorem occupied_mono_entry (locked : Nat → Bool) (now : Int) (db : DB)
    (p l : String) (hl : l ∈ get_occupied_slots db) :
    l ∈ get_occupied_slots (log_entry locked now db p).2 := by
  rcases log_entry_snd_cases locked now db p with heq | ⟨s, _, _, _, heq⟩
  · rw [heq]; exact hl
  · rw [heq]
    rw [mem_occupied_iff] at hl ⊢
    obtain ⟨r, hr, hst, hsl⟩ := hl
    exact ⟨r, List.mem_append_left _ hr, hst, hsl⟩

theorem occupied_stays_confirm (locked : Nat → Bool) (now : Int) (db : DB)
    (p : String) (r : Record) (l : String) (hid : IdInv db)
    (hr : last_in_record db p = some r) (hl : l ∈ get_occupied_slots db)
    (hne : r.slot ≠ some l) :
    l ∈ get_occupied_slots (confirm_payment_and_exit locked now db p).2 := by
  by_cases hw : wait_for_db_unlock locked 5 = true
  · obtain ⟨f, _, hfid, _, hfsl, _, heq⟩ := confirm_some_shape locked now db p r hw hr
    rw [heq]
    rw [mem_occupied_iff] at hl ⊢
    obtain ⟨q, hq, hst, hsl⟩ := hl
    have hqr : q.id ≠ r.id := by
      intro hqid
      have hrm := (last_in_record_spec db p r hr).1
      by_cases hqe : q = r
      · subst hqe; exact hne hsl
      · have hsymm : Symmetric (fun a b : Record => a.id ≠ b.id) :=
          fun a b hab he => hab he.symm
        exact (List.Pairwise.forall hsymm hid hq hrm hqe) hqid
    refine ⟨f q, List.mem_map_of_mem f hq, ?_, ?_⟩
    · rw [hfid q hqr]; exact hst
    · rw [hfid q hqr]; exact hsl
  · simp only [Bool.not_eq_true] at hw
    rw [confirm_of_locked locked now db p hw]
    exact hl

theorem find?_congr_pred {α : Type} {p q : α → Bool} :
    ∀ l : List α, (∀ x ∈ l, p x = q x) → l.find? p = l.find? q := by
  intro l
  induction l with
  | nil => intro _; rfl
  | cons a t ih =>
      intro h
      by_cases hpa : p a = true
      · have hqa : q a = true := by rw [← h a (List.mem_cons_self a t)]; exact hpa
        rw [List.find?_cons_of_pos t hpa, List.find?_cons_of_pos t hqa]
      · have hqa : ¬(q a = true) := by
          rw [← h a (List.mem_cons_self a t)]; exact hpa
        rw [List.find?_cons_of_neg t hpa, List.find?_cons_of_neg t hqa]
        exact ih (fun x hx => h x (List.mem_cons_of_mem a hx))

theorem occupied_append_slotless (db : DB) (r : Record) (n : Nat)
    (hst : r.status = Status.IN) (hsl : r.slot = none) :
    get_occupied_slots { rows := db.rows ++ [r], next_id := n } =
      get_occupied_slots db := by
  simp [get_occupied_slots, List.filterMap_append, hst, hsl]

theorem fetch_append_slotless (db : DB) (r : Record) (n : Nat)
    (hst : r.status = Status.IN) (hsl : r.slot = none) :
    fetch_current_slots { rows := db.rows ++ [r], next_id := n } =
      fetch_current_slots db := by
  simp [fetch_current_slots, List.filterMap_append, hst, hsl]

theorem wait_loop_congr (locked1 locked2 : Nat → Bool) :
    ∀ (n a : Nat), (∀ i, i < n → locked1 (a + i) = locked2 (a + i)) →
      wait_loop locked1 a n = wait_loop locked2 a n := by
  intro n
  induction n with
  | zero => intro a _; rfl
  | succ m ih =>
      intro a h
      have h0 : locked1 a = locked2 a := by simpa using h 0 (by omega)
      simp only [wait_loop, h0]
      by_cases h2 : locked2 a = true
      · simp only [h2, if_true]
        rw [ih (a + 1)]
        intro i hi
        have := h (i + 1) (by omega)
        rw [show a + 1 + i = a + (i + 1) by omega]
        exact this
      · simp only [h2]
        rfl

end Parking

namespace Parking

/-- C5: for every entry and exit time, both quoteExit (log_exit) and
confirmAndClose (confirm_payment_and_exit) compute durationMinutes as
ceil(max(1, elapsed seconds) / 60) — extensionally equal to the code's
max(1, ceil(elapsed / 60)) — and amountDue = durationMinutes * rate;
durationMinutes is at least 1 always, and 90 elapsed seconds give 2
minutes and twice the per-minute rate. -/
theorem billing_formula_correct :
    (∀ s : Int, duration_minutes s = spec_duration_minutes s) ∧
    (∀ s : Int, 1 ≤ duration_minutes s) ∧
    (∀ locked now db p r, wait_for_db_unlock locked 5 = true →
      last_in_record db p = some r →
      (log_exit locked now db p).1 = ExitOutcome.ok
        { plate := p, entry_time := r.entry_time, exit_time := now,
          duration_min := duration_minutes (now - r.entry_time),
          amount := duration_minutes (now - r.entry_time) * RATE_PER_MIN,
          slot := r.slot.getD "Unknown" }) ∧
    (∀ locked now db p r, wait_for_db_unlock locked 5 = true →
      last_in_record db p = some r → r.exit_time = none →
      ∀ q ∈ (confirm_payment_and_exit locked now db p).2.rows, q.id = r.id →
        q.duration_min = some (duration_minutes (now - r.entry_time)) ∧
        q.amount = some (duration_minutes (now - r.entry_time) * RATE_PER_MIN)) ∧
    duration_minutes 90 = 2 ∧
    duration_minutes 90 * RATE_PER_MIN = 2 * RATE_PER_MIN := by
  refine ⟨?_, ?_, ?_, ?_, by decide, by decide⟩
  · intro s
    unfold duration_minutes spec_duration_minutes ceilDiv
    omega
  · intro s
    exact le_max_left 1 _
  · intro locked now db p r hw hr
    rw [log_exit_of_some locked now db p r hw hr]
  · intro locked now db p r hw hr hx q hq hid
    rw [confirm_of_fresh locked now db p r hw hr hx] at hq
    simp only [List.mem_map] at hq
    obtain ⟨q0, hq0, rfl⟩ := hq
    by_cases h0 : q0.id = r.id
    · constructor <;> simp [close_with_billing, h0]
    · rw [close_with_billing_of_ne _ _ _ _ _ h0] at hid
      exact absurd hid h0

/-- Witness for C5: the quote of a 90-second stay of the concrete store
`db_a` evaluates to 2 minutes and amount 2. -/
theorem billing_formula_correct_witness :
    wait_for_db_unlock no_lock 5 = true ∧
    last_in_record db_a "KA01A1111" = some rec_a ∧
    (log_exit no_lock 90 db_a "KA01A1111").1 = ExitOutcome.ok
      { plate := "KA01A1111", entry_time := rec_a.entry_time, exit_time := 90,
        duration_min := duration_minutes (90 - rec_a.entry_time),
        amount := duration_minutes (90 - rec_a.entry_time) * RATE_PER_MIN,
        slot := rec_a.slot.getD "Unknown" } :=
  ⟨by decide, by decide,
    billing_formula_correct.2.2.1 no_lock 90 db_a "KA01A1111" rec_a
      (by decide) (by decide)⟩

/-- C7: quoteExit (log_exit) never mutates the ledger — the store it
returns is the one it was given, so repeated calls see an identical ledger
and each call recomputes the quote against the current time passed to it. -/
theorem quote_exit_frame :
    (∀ locked now db p, (log_exit locked now db p).2 = db) ∧
    (∀ l1 t1 l2 t2 db p,
        log_exit l2 t2 (log_exit l1 t1 db p).2 p = log_exit l2 t2 db p) ∧
    (∀ locked now db p r, wait_for_db_unlock locked 5 = true →
        last_in_record db p = some r →
        (log_exit locked now db p).1 = ExitOutcome.ok
          { plate := p, entry_time := r.entry_time, exit_time := now,
            duration_min := duration_minutes (now - r.entry_time),
            amount := duration_minutes (now - r.entry_time) * RATE_PER_MIN,
            slot := r.slot.getD "Unknown" }) := by
  refine ⟨log_exit_snd, ?_, ?_⟩
  · intro l1 t1 l2 t2 db p
    rw [log_exit_snd]
  · intro locked now db p r hw hr
    rw [log_exit_of_some locked now db p r hw hr]

/-- Witness for C7: quoting the concrete store `db_a` twice leaves it
unchanged and requotes against the later time. -/
theorem quote_exit_frame_witness :
    (log_exit no_lock 61 db_a "KA01A1111").2 = db_a ∧
    log_exit no_lock 120 (log_exit no_lock 61 db_a "KA01A1111").2 "KA01A1111"
      = log_exit no_lock 120 db_a "KA01A1111" ∧
    (log_exit no_lock 61 db_a "KA01A1111").1 = ExitOutcome.ok
      { plate := "KA01A1111", entry_time := rec_a.entry_time, exit_time := 61,
        duration_min := duration_minutes (61 - rec_a.entry_time),
        amount := duration_minutes (61 - rec_a.entry_time) * RATE_PER_MIN,
        slot := rec_a.slot.getD "Unknown" } :=
  ⟨quote_exit_frame.1 no_lock 61 db_a "KA01A1111",
   quote_exit_frame.2.1 no_lock 61 no_lock 120 db_a "KA01A1111",
   quote_exit_frame.2.2 no_lock 61 db_a "KA01A1111" rec_a (by decide) (by decide)⟩

/-- C9: the store-busy probe loop makes at most 5 attempts, 500 ms apart;
when all 5 probes find the store locked, each mutating operation returns
its store-busy outcome with the ledger untouched. -/
theorem retry_bound_correct :
    (∀ locked, wait_for_db_unlock locked 5 = false ↔
        ∀ i, i < 5 → locked i = true) ∧
    (∀ locked1 locked2, (∀ i, i < 5 → locked1 i = locked2 i) →
        wait_for_db_unlock locked1 5 = wait_for_db_unlock locked2 5) ∧
    (∀ locked, wait_sleep_ms locked 5 ≤ 5 * 500) ∧
    (∀ locked, (∀ i, i < 5 → locked i = true) →
        wait_sleep_ms locked 5 = 5 * 500) ∧
    (∀ locked now db p, (∀ i, i < 5 → locked i = true) →
        log_entry locked now db p = ("db_locked", db) ∧
        log_exit locked now db p = (ExitOutcome.db_locked, db) ∧
        confirm_payment_and_exit locked now db p = (false, db)) := by
  refine ⟨?_, ?_, ?_, ?_, ?_⟩
  · intro locked
    have h := wait_loop_false_iff locked 5 0
    simpa [wait_for_db_unlock] using h
  · intro l1 l2 h
    unfold wait_for_db_unlock
    rw [wait_loop_congr l1 l2 5 0 (by simpa using h)]
  · intro locked
    exact wait_loop_sleep_le locked 5 0
  · intro locked h
    exact wait_loop_sleep_all locked 5 0 (by simpa using h)
  · intro locked now db p h
    have hw := wait_all_locked locked h
    exact ⟨log_entry_of_locked locked now db p hw,
           log_exit_of_locked locked now db p hw,
           confirm_of_locked locked now db p hw⟩

/-- Witness for C9: against a permanently busy store all three operations
surface their busy outcome and leave the (empty) store unchanged. -/
theorem retry_bound_correct_witness :
    log_entry all_locked 0 empty_db "MH12AB1234" = ("db_locked", empty_db) ∧
    log_exit all_locked 0 empty_db "MH12AB1234" =
      (ExitOutcome.db_locked, empty_db) ∧
    confirm_payment_and_exit all_locked 0 empty_db "MH12AB1234" =
      (false, empty_db) :=
  retry_bound_correct.2.2.2.2 all_locked 0 empty_db "MH12AB1234"
    (fun _ _ => rfl)

/-- C10: an IN row whose slot is NULL is invisible to slot accounting —
it adds nothing to the occupied set, the occupancy map or the allocator's
view — yet still makes log_entry for its plate return already_in; on a
store holding only such a row the allocator hands out the first label and
the occupancy map is entirely free. -/
theorem slotless_in_row_invisible :
    (∀ db r n, r.status = Status.IN → r.slot = none →
       get_occupied_slots { rows := db.rows ++ [r], next_id := n } =
         get_occupied_slots db ∧
       fetch_current_slots { rows := db.rows ++ [r], next_id := n } =
         fetch_current_slots db ∧
       find_next_available_slot { rows := db.rows ++ [r], next_id := n } =
         find_next_available_slot db ∧
       (∀ locked now, wait_for_db_unlock locked 5 = true →
          log_entry locked now { rows := db.rows ++ [r], next_id := n }
              r.plate =
            ("already_in", { rows := db.rows ++ [r], next_id := n }))) ∧
    (get_occupied_slots ghost_db = [] ∧
     find_next_available_slot ghost_db = some "A1" ∧
     fetch_current_slots ghost_db = SLOT_LABELS.map (fun l => (l, none)) ∧
     has_in_record ghost_db "KA05G5555" = true) := by
  constructor
  · intro db r n hst hsl
    refine ⟨occupied_append_slotless db r n hst hsl,
            fetch_append_slotless db r n hst hsl, ?_, ?_⟩
    · unfold find_next_available_slot
      rw [occupied_append_slotless db r n hst hsl]
    · intro locked now hw
      have hi : has_in_record { rows := db.rows ++ [r], next_id := n }
          r.plate = true := by
        simp [has_in_record, List.any_append, hst]
      simp [log_entry, hw, hi]
  · exact ⟨by decide, by decide, by decide, by decide⟩

/-- Witness for C10: the slotless IN row `ghost_rec` appended to the empty
store is invisible to the occupied-slot set yet blocks a second entry for
its plate. -/
theorem slotless_in_row_invisible_witness :
    ghost_rec.status = Status.IN ∧ ghost_rec.slot = none ∧
    get_occupied_slots { rows := empty_db.rows ++ [ghost_rec], next_id := 2 } =
      get_occupied_slots empty_db ∧
    log_entry no_lock 0 { rows := empty_db.rows ++ [ghost_rec], next_id := 2 }
        ghost_rec.plate =
      ("already_in", { rows := empty_db.rows ++ [ghost_rec], next_id := 2 }) :=
  ⟨by decide, by decide,
   (slotless_in_row_invisible.1 empty_db ghost_rec 2 (by decide) (by decide)).1,
   (slotless_in_row_invisible.1 empty_db ghost_rec 2 (by decide)
      (by decide)).2.2.2 no_lock 0 (by decide)⟩

end Parking

namespace Parking

theorem close_with_billing_id (now d a : Int) (rid : Nat) (q : Record) :
    (close_with_billing now d a rid q).id = q.id := by
  unfold close_with_billing; split <;> rfl

theorem filter_id_unique (l : List Record) (r : Record)
    (hid : l.Pairwise (fun r1 r2 => r1.id ≠ r2.id)) (hr : r ∈ l) :
    l.filter (fun q => q.id == r.id) = [r] := by
  induction l with
  | nil => cases hr
  | cons a t ih =>
      have hrel : ∀ b ∈ t, a.id ≠ b.id :=
        fun b hb => List.rel_of_pairwise_cons hid hb
      rcases List.mem_cons.1 hr with heq | hrt
      · subst heq
        have ht : t.filter (fun q => q.id == r.id) = [] := by
          rw [List.filter_eq_nil_iff]
          intro b hb
          simp only [beq_iff_eq]
          exact fun he => hrel b hb he.symm
        rw [List.filter_cons]
        simp [ht]
      · have ha : (a.id == r.id) = false := by
          simp only [beq_eq_false_iff_ne]
          exact hrel r hrt
        rw [List.filter_cons]
        simp only [ha, Bool.false_eq_true, if_false]
        exact ih (List.Pairwise.of_cons hid) hrt

/-- C3: a successful log_entry inserts exactly one new IN row for the
plate, carrying the given timestamp and the allocated slot, leaving
exactly one IN record for that plate; a second log_entry for the same
plate then returns already_in and inserts nothing. -/
theorem log_entry_correct :
    ∀ locked now db p db2,
      log_entry locked now db p = ("entry_logged", db2) →
      ∃ s, find_next_available_slot db = some s ∧
        db2.rows = db.rows ++ [new_entry_record db.next_id p now s] ∧
        db2.next_id = db.next_id + 1 ∧
        (db2.rows.filter
            (fun r => r.plate == p && r.status == Status.IN)).length = 1 ∧
        ∀ locked2 now2, wait_for_db_unlock locked2 5 = true →
          log_entry locked2 now2 db2 p = ("already_in", db2) := by
  intro locked now db p db2 h
  obtain ⟨hw, hi, s, hs, rfl⟩ := log_entry_success_shape locked now db p db2 h
  refine ⟨s, hs, rfl, rfl, ?_, ?_⟩
  · rw [List.filter_append]
    have hnil : db.rows.filter
        (fun r => r.plate == p && r.status == Status.IN) = [] := by
      rw [List.filter_eq_nil_iff]
      intro a ha
      unfold has_in_record at hi
      rw [List.any_eq_false] at hi
      exact hi a ha
    rw [hnil]
    simp [new_entry_record]
  · intro locked2 now2 hw2
    have hi2 : has_in_record
        { rows := db.rows ++ [new_entry_record db.next_id p now s],
          next_id := db.next_id + 1 } p = true := by
      simp [has_in_record, List.any_append, new_entry_record]
    simp [log_entry, hw2, hi2]

/-- Witness for C3: a successful entry on the empty store allocates slot
A1 and a second entry for the same plate is refused. -/
theorem log_entry_correct_witness :
    ∃ s, find_next_available_slot empty_db = some s ∧
      ({ rows := [new_entry_record 1 "MH12AB1234" 0 "A1"],
         next_id := 2 } : DB).rows =
        empty_db.rows ++ [new_entry_record empty_db.next_id "MH12AB1234" 0 s] ∧
      ({ rows := [new_entry_record 1 "MH12AB1234" 0 "A1"],
         next_id := 2 } : DB).next_id = empty_db.next_id + 1 ∧
      (({ rows := [new_entry_record 1 "MH12AB1234" 0 "A1"],
          next_id := 2 } : DB).rows.filter
          (fun r => r.plate == "MH12AB1234" && r.status == Status.IN)).length
        = 1 ∧
      ∀ locked2 now2, wait_for_db_unlock locked2 5 = true →
        log_entry locked2 now2
            { rows := [new_entry_record 1 "MH12AB1234" 0 "A1"],
              next_id := 2 } "MH12AB1234" =
          ("already_in",
            { rows := [new_entry_record 1 "MH12AB1234" 0 "A1"],
              next_id := 2 }) :=
  log_entry_correct no_lock 0 empty_db "MH12AB1234"
    { rows := [new_entry_record 1 "MH12AB1234" 0 "A1"], next_id := 2 }
    (by decide)

/-- C4: confirmAndClose fails when no IN record exists; on a fresh IN
record it persists exit time, duration, amount and OUT in one update, on a
requoted record it only forces OUT; after one success a second call is
refused and leaves the store — hence the billed fields — unchanged, and
(with distinct ids) exactly one row, the closed one, carries the billing. -/
theorem confirm_and_close_correct :
    (∀ locked now db p, last_in_record db p = none →
        confirm_payment_and_exit locked now db p = (false, db)) ∧
    (∀ locked now db p r, wait_for_db_unlock locked 5 = true →
        last_in_record db p = some r → r.exit_time = none →
        confirm_payment_and_exit locked now db p =
          (true, { rows := db.rows.map (close_with_billing now
                      (duration_minutes (now - r.entry_time))
                      (duration_minutes (now - r.entry_time) * RATE_PER_MIN)
                      r.id),
                   next_id := db.next_id })) ∧
    (∀ locked now db p r t, wait_for_db_unlock locked 5 = true →
        last_in_record db p = some r → r.exit_time = some t →
        confirm_payment_and_exit locked now db p =
          (true, { rows := db.rows.map (force_out r.id),
                   next_id := db.next_id })) ∧
    (∀ locked now db p db2, PlateInv db →
        confirm_payment_and_exit locked now db p = (true, db2) →
        ∀ locked2 now2,
          confirm_payment_and_exit locked2 now2 db2 p = (false, db2)) ∧
    (∀ locked now db p r, IdInv db → wait_for_db_unlock locked 5 = true →
        last_in_record db p = some r → r.exit_time = none →
        (confirm_payment_and_exit locked now db p).2.rows.filter
            (fun q => q.id == r.id) =
          [{ r with exit_time := some now,
                    duration_min := some (duration_minutes (now - r.entry_time)),
                    amount :=
                      some (duration_minutes (now - r.entry_time) * RATE_PER_MIN),
                    status := Status.OUT }]) := by
  refine ⟨confirm_of_none, confirm_of_fresh, confirm_of_requoted, ?_, ?_⟩
  · intro locked now db p db2 hPlate h locked2 now2
    exact confirm_of_none locked2 now2 db2 p
      (confirm_then_not_found locked now db p db2 hPlate h)
  · intro locked now db p r hid hw hr hx
    rw [confirm_of_fresh locked now db p r hw hr hx]
    have hrm := (last_in_record_spec db p r hr).1
    have hpred : (fun q => q.id == r.id) ∘
        (close_with_billing now (duration_minutes (now - r.entry_time))
          (duration_minutes (now - r.entry_time) * RATE_PER_MIN) r.id) =
        (fun q => q.id == r.id) := by
      funext q
      simp [close_with_billing_id]
    rw [List.filter_map, hpred, filter_id_unique db.rows r hid hrm]
    simp [close_with_billing]

/-- Witness for C4: confirming the open stay of the concrete store `db_a`
at time 90 closes its row with duration 2 and amount 2 in one update. -/
theorem confirm_and_close_correct_witness :
    confirm_payment_and_exit no_lock 90 db_a "KA01A1111" =
      (true, { rows := db_a.rows.map (close_with_billing 90
                  (duration_minutes (90 - rec_a.entry_time))
                  (duration_minutes (90 - rec_a.entry_time) * RATE_PER_MIN)
                  rec_a.id),
               next_id := db_a.next_id }) :=
  confirm_and_close_correct.2.1 no_lock 90 db_a "KA01A1111" rec_a
    (by decide) (by decide) (by decide)

/-- C6: the allocator returns the first label of the fixed ordered set
A1..A15 not referenced by a status-IN row, never an occupied label, and
None exactly when every label is occupied (so log_entry returns full);
its result depends only on the occupied-slot set. -/
theorem slot_allocator_correct :
    (∀ db s, find_next_available_slot db = some s →
        s ∈ SLOT_LABELS ∧ s ∉ get_occupied_slots db ∧
        ∃ pre post, SLOT_LABELS = pre ++ s :: post ∧
          ∀ l ∈ pre, l ∈ get_occupied_slots db) ∧
    (∀ db, find_next_available_slot db = none ↔
        ∀ l ∈ SLOT_LABELS, l ∈ get_occupied_slots db) ∧
    (∀ db1 db2,
        (∀ l, l ∈ get_occupied_slots db1 ↔ l ∈ get_occupied_slots db2) →
        find_next_available_slot db1 = find_next_available_slot db2) ∧
    (∀ locked now db p, wait_for_db_unlock locked 5 = true →
        has_in_record db p = false → find_next_available_slot db = none →
        log_entry locked now db p = ("full", db)) := by
  refine ⟨?_, ?_, ?_, ?_⟩
  · intro db s h
    unfold find_next_available_slot at h
    rw [List.find?_eq_some] at h
    obtain ⟨hp, pre, post, heq, hpre⟩ := h
    refine ⟨by rw [heq]; exact List.mem_append_right _ (List.mem_cons_self s post),
      ?_, pre, post, heq, ?_⟩
    · simp [List.contains] at hp
      exact hp
    · intro l hl
      have := hpre l hl
      simp [List.contains] at this
      exact this
  · intro db
    simp [find_next_available_slot, List.find?_eq_none, List.contains]
  · intro db1 db2 h
    unfold find_next_available_slot
    apply find?_congr_pred
    intro x _
    have : (get_occupied_slots db1).contains x =
        (get_occupied_slots db2).contains x := by
      simp only [List.contains, List.elem_eq_mem]
      exact decide_eq_decide.mpr (h x)
    rw [this]
  · intro locked now db p hw hi hfull
    simp [log_entry, hw, hi, hfull]

/-- Witness for C6: on the concrete one-car store `db_a` the allocator
returns A2, which is unoccupied and preceded only by the occupied A1. -/
theorem slot_allocator_correct_witness :
    "A2" ∈ SLOT_LABELS ∧ "A2" ∉ get_occupied_slots db_a ∧
    ∃ pre post, SLOT_LABELS = pre ++ "A2" :: post ∧
      ∀ l ∈ pre, l ∈ get_occupied_slots db_a :=
  slot_allocator_correct.1 db_a "A2" (by decide)

end Parking

namespace Parking

/-- C2: both uniqueness invariants (at most one IN row per plate and per
slot label) hold in every store reachable by the three operations from a
store satisfying them; occupancy only grows on entry, is untouched by a
quote, and confirmation frees exactly the closed record's slot label. -/
theorem ledger_invariants_preserved :
    (∀ db db2, Inv db → Reachable db db2 → Inv db2) ∧
    (∀ locked now db p l, l ∈ get_occupied_slots db →
        l ∈ get_occupied_slots (log_entry locked now db p).2) ∧
    (∀ locked now db p,
        get_occupied_slots (log_exit locked now db p).2 =
          get_occupied_slots db) ∧
    (∀ locked now db p r s, Inv db → wait_for_db_unlock locked 5 = true →
        last_in_record db p = some r → r.slot = some s →
        s ∉ get_occupied_slots (confirm_payment_and_exit locked now db p).2) ∧
    (∀ locked now db p r l, IdInv db → last_in_record db p = some r →
        l ∈ get_occupied_slots db → r.slot ≠ some l →
        l ∈ get_occupied_slots (confirm_payment_and_exit locked now db p).2) := by
  refine ⟨Inv_reachable, occupied_mono_entry, ?_, ?_, occupied_stays_confirm⟩
  · intro locked now db p
    rw [log_exit_snd]
  · intro locked now db p r s hInv hw hr hslot
    obtain ⟨f, hf, _, _, _, _, heq⟩ := confirm_some_shape locked now db p r hw hr
    rw [heq]
    obtain ⟨hrm, _, hrs⟩ := last_in_record_spec db p r hr
    exact slot_not_occupied_after_map db db.next_id r s f hInv.2 hrm hrs hslot hf

/-- Witness for C2: the invariants hold after a concrete entry reached
from the empty store, which satisfies them vacuously. -/
theorem ledger_invariants_preserved_witness :
    Inv empty_db ∧ Inv (log_entry no_lock 0 empty_db "MH12AB1234").2 :=
  ⟨⟨List.Pairwise.nil, List.Pairwise.nil⟩,
   ledger_invariants_preserved.1 empty_db
     (log_entry no_lock 0 empty_db "MH12AB1234").2
     ⟨List.Pairwise.nil, List.Pairwise.nil⟩
     (Reachable.entry empty_db empty_db no_lock 0 "MH12AB1234"
       (Reachable.refl empty_db))⟩

/-- C1 counterexample: the SMS-webhook handler confirms a payment
successfully (the confirmation call on the same store and plate returns
true) yet emits zero open_exit_gate events, so it is not the case that
every successful payment confirmation emits exactly one open_exit_gate
command. -/
theorem sms_confirm_emits_no_gate :
    (confirm_payment_and_exit no_lock 60 db_a "KA01A1111").1 = true ∧
    (sms_webhook no_lock 60 db_a "tok" "tok" (some (1, "KA01A1111"))).1 =
      "Payment confirmed, exit allowed" ∧
    ((sms_webhook no_lock 60 db_a "tok" "tok"
        (some (1, "KA01A1111"))).2.2.count
      (Event.open_exit_gate "KA01A1111")) = 0 := by
  refine ⟨by decide, ?_, by decide⟩
  decide

/-- C1 (amended): an open_exit_gate command is emitted exactly by the
api_confirm_exit handler, exactly once, for the confirmed plate, exactly
when its confirm_payment_and_exit call succeeds; no other handler —
including the SMS-webhook confirmation path — ever emits one. -/
theorem gate_command_iff_api_confirm_success :
    (∀ locked now st plate p,
        Event.open_exit_gate p ∈ (api_confirm_exit locked now st plate).events
          ↔ (plate = some p ∧
             (confirm_payment_and_exit locked now st.db p).1 = true)) ∧
    (∀ locked now st p,
        (confirm_payment_and_exit locked now st.db p).1 = true →
        ((api_confirm_exit locked now st (some p)).events.count
            (Event.open_exit_gate p)) = 1) ∧
    (∀ st p q, Event.open_exit_gate q ∉ (set_pending_exit st p).2) ∧
    (∀ plate status q,
        Event.open_exit_gate q ∉ plate_detected_handler plate status) ∧
    (∀ locked now db tok exp parsed q,
        Event.open_exit_gate q ∉ (sms_webhook locked now db tok exp parsed).2.2)
    := by
  refine ⟨?_, ?_, ?_, ?_, ?_⟩
  · intro locked now st plate p
    cases plate with
    | none => simp [api_confirm_exit]
    | some p0 =>
        by_cases hc : (confirm_payment_and_exit locked now st.db p0).1 = true
        · simp only [api_confirm_exit, hc, if_true]
          constructor
          · intro hmem
            simp only [List.mem_cons, List.not_mem_nil, or_false] at hmem
            rcases hmem with h | h | h | h
            · cases h; exact ⟨rfl, hc⟩
            · cases h
            · cases h
            · cases h
          · rintro ⟨heq, _⟩
            cases heq
            exact List.mem_cons_self _ _
        · simp only [api_confirm_exit, hc, if_false]
          constructor
          · intro hmem
            simp at hmem
          · rintro ⟨heq, hc2⟩
            cases heq
            exact absurd hc2 hc
  · intro locked now st p hc
    simp [api_confirm_exit, hc, List.count_cons]
  · intro st p q
    simp [set_pending_exit]
  · intro plate status q
    cases plate with
    | none => simp [plate_detected_handler]
    | some p0 =>
        cases status with
        | none => simp [plate_detected_handler]
        | some s0 =>
            simp only [plate_detected_handler]
            intro hmem
            simp only [List.mem_cons] at hmem
            rcases hmem with h | h
            · cases h
            · by_cases hs : s0 = "entry_logged" <;> simp [hs] at h
  · intro locked now db tok exp parsed q
    unfold sms_webhook
    by_cases ht : tok ≠ exp
    · simp [ht]
    · cases parsed with
      | none => simp [ht]
      | some pair =>
          by_cases hc : (confirm_payment_and_exit locked now db pair.2).1 = true
          · simp [ht, hc]
          · simp [ht, hc]

/-- Witness for C1 (amended): confirming the open stay of the concrete
store `db_a` through the API handler emits exactly one open_exit_gate
command for the plate. -/
theorem gate_command_iff_api_confirm_success_witness :
    (confirm_payment_and_exit no_lock 60
        (AppState.mk db_a none).db "KA01A1111").1 = true ∧
    ((api_confirm_exit no_lock 60 (AppState.mk db_a none)
        (some "KA01A1111")).events.count
      (Event.open_exit_gate "KA01A1111")) = 1 :=
  ⟨by decide,
   gate_command_iff_api_confirm_success.2.1 no_lock 60
     (AppState.mk db_a none) "KA01A1111" (by decide)⟩

/-- C8: the pending-exit slot holds at most one plate — setPending
unconditionally overwrites, the confirmation path clears only on a match —
so after pending A is overwritten by B, the pending plate reads B, and a
confirmation of A leaves B pending. -/
theorem pending_exit_single_slot :
    (∀ st p, ((set_pending_exit st p).1).pending_exit_plate = some p) ∧
    (∀ st p1 p2,
        get_pending_exit
          (set_pending_exit (set_pending_exit st p1).1 p2).1 = some p2) ∧
    (∀ locked now st p,
        (api_confirm_exit locked now st (some p)).success = true →
        (api_confirm_exit locked now st (some p)).state.pending_exit_plate =
          (if st.pending_exit_plate = some p then none
           else st.pending_exit_plate)) ∧
    (get_pending_exit pending_scenario_state = some "KA02B2222" ∧
     (api_confirm_exit no_lock 60 pending_scenario_state
        (some "KA01A1111")).success = true ∧
     (api_confirm_exit no_lock 60 pending_scenario_state
        (some "KA01A1111")).state.pending_exit_plate = some "KA02B2222") := by
  refine ⟨?_, ?_, ?_, by decide, by decide, by decide⟩
  · intro st p
    rfl
  · intro st p1 p2
    rfl
  · intro locked now st p hsucc
    by_cases hc : (confirm_payment_and_exit locked now st.db p).1 = true
    · simp [api_confirm_exit, hc]
    · simp [api_confirm_exit, hc] at hsucc

/-- Witness for C8: on the concrete overwritten-pending state, a
successful confirmation of plate A leaves plate B pending because the
compare-and-clear does not match. -/
theorem pending_exit_single_slot_witness :
    (api_confirm_exit no_lock 60 pending_scenario_state
        (some "KA01A1111")).success = true ∧
    (api_confirm_exit no_lock 60 pending_scenario_state
        (some "KA01A1111")).state.pending_exit_plate =
      (if pending_scenario_state.pending_exit_plate = some "KA01A1111"
       then none else pending_scenario_state.pending_exit_plate) :=
  ⟨by decide,
   pending_exit_single_slot.2.2.1 no_lock 60 pending_scenario_state
     "KA01A1111" (by decide)⟩

end Parking
